import Mathlib

/-!
Verification of the analytics engine of the real-estate dashboard
(`app.py`, class `RealEstateDashboard`).

The pandas `DataFrame` of listings is embedded as a `List Row`, one `Row`
per record, with the numeric columns as rationals.  A pandas scalar that
can be NaN (the mean/min/max/skew/correlation of an empty or degenerate
series) is embedded as an `Option` value, `none` standing for NaN; a
pandas operation that raises (`idxmax` of an empty grouping) is embedded
in `Except Unit`.
-/

/-- One record of the loaded dataset.  Field names follow the CSV column
names used by `app.py`. -/
structure Row where
  Price_in_Lakhs : ℚ
  Size_in_SqFt : ℚ
  Price_per_SqFt : ℚ
  City : String
  Property_Type : String
  BHK : ℕ
  Furnished_Status : String
  Parking_Space : ℕ
  Amenities : String
deriving DecidableEq, Repr

/-- The filter state assembled by `display_sidebar_filters`: the two range
sliders and the three multiselect widgets (a multiselect yields a list;
an empty list means no restriction, mirroring `if selected_cities:`). -/
structure FilterCriteria where
  priceMin : ℚ
  priceMax : ℚ
  sizeMin : ℚ
  sizeMax : ℚ
  cities : List String
  propertyTypes : List String
  bhkValues : List ℕ
deriving DecidableEq, Repr

/-- The filter pipeline of `display_sidebar_filters` (app.py lines
142-167): successive boolean-mask filters for the price range, the size
range, and — only when the corresponding selection is non-empty — the
`isin` membership filters for city, property type and BHK. -/
def applyFilters (df : List Row) (c : FilterCriteria) : List Row :=
  let d1 := df.filter fun r => decide (c.priceMin ≤ r.Price_in_Lakhs ∧ r.Price_in_Lakhs ≤ c.priceMax)
  let d2 := d1.filter fun r => decide (c.sizeMin ≤ r.Size_in_SqFt ∧ r.Size_in_SqFt ≤ c.sizeMax)
  let d3 := if c.cities.isEmpty then d2 else d2.filter fun r => decide (r.City ∈ c.cities)
  let d4 := if c.propertyTypes.isEmpty then d3 else
    d3.filter fun r => decide (r.Property_Type ∈ c.propertyTypes)
  if c.bhkValues.isEmpty then d4 else d4.filter fun r => decide (r.BHK ∈ c.bhkValues)

/-- The conjunction of all predicates of a `FilterCriteria`, with the
empty-selection dimensions unrestricted. -/
def passes (c : FilterCriteria) (r : Row) : Prop :=
  (c.priceMin ≤ r.Price_in_Lakhs ∧ r.Price_in_Lakhs ≤ c.priceMax) ∧
  (c.sizeMin ≤ r.Size_in_SqFt ∧ r.Size_in_SqFt ≤ c.sizeMax) ∧
  (c.cities = [] ∨ r.City ∈ c.cities) ∧
  (c.propertyTypes = [] ∨ r.Property_Type ∈ c.propertyTypes) ∧
  (c.bhkValues = [] ∨ r.BHK ∈ c.bhkValues)

instance (c : FilterCriteria) (r : Row) : Decidable (passes c r) := by
  unfold passes; infer_instance

theorem applyFilters_sublist (df : List Row) (c : FilterCriteria) :
    (applyFilters df c).Sublist df := by
  simp only [applyFilters]
  split_ifs <;>
    (repeat refine List.Sublist.trans (List.filter_sublist _) ?_) <;>
    exact List.Sublist.refl _

theorem mem_applyFilters (df : List Row) (c : FilterCriteria) (r : Row) :
    r ∈ applyFilters df c ↔ r ∈ df ∧ passes c r := by
  unfold applyFilters passes
  rcases hc : c.cities with _ | ⟨c0, cs⟩ <;>
    rcases hp : c.propertyTypes with _ | ⟨p0, ps⟩ <;>
      rcases hb : c.bhkValues with _ | ⟨b0, bs⟩ <;>
        simp [List.mem_filter, and_assoc] <;> tauto

/-- C1.  A record appears in the filtered view iff it is a record of the
dataset whose price and size lie in the inclusive ranges and whose city,
property type and BHK belong to the respective selections whenever those
are non-empty; moreover the view is a sublist of the dataset, i.e. the
filter is stable and preserves the original relative order. -/
theorem claim1_filter_sound_complete_stable (df : List Row) (c : FilterCriteria) :
    (∀ r : Row, r ∈ applyFilters df c ↔ r ∈ df ∧ passes c r) ∧
      (applyFilters df c).Sublist df :=
  ⟨mem_applyFilters df c, applyFilters_sublist df c⟩

/-- C2.  When every membership selection is empty and the price and size
ranges cover the whole dataset (they span its min-to-max), filtering is
the identity. -/
theorem claim2_full_range_identity (df : List Row) (c : FilterCriteria)
    (hc : c.cities = []) (hp : c.propertyTypes = []) (hb : c.bhkValues = [])
    (hpl : ∀ r ∈ df, c.priceMin ≤ r.Price_in_Lakhs)
    (hpu : ∀ r ∈ df, r.Price_in_Lakhs ≤ c.priceMax)
    (hsl : ∀ r ∈ df, c.sizeMin ≤ r.Size_in_SqFt)
    (hsu : ∀ r ∈ df, r.Size_in_SqFt ≤ c.sizeMax) :
    applyFilters df c = df := by
  unfold applyFilters
  simp only [hc, hp, hb, List.isEmpty_nil, if_true]
  rw [List.filter_eq_self.mpr, List.filter_eq_self.mpr]
  · intro r hr
    exact decide_eq_true ⟨hpl r hr, hpu r hr⟩
  · intro r hr
    have hr' : r ∈ df := List.mem_of_mem_filter hr
    exact decide_eq_true ⟨hsl r hr', hsu r hr'⟩

/-- A tiny concrete dataset used by witnesses. -/
def rowA : Row :=
  { Price_in_Lakhs := 100, Size_in_SqFt := 1000, Price_per_SqFt := 10000
    City := "A", Property_Type := "Apartment", BHK := 2
    Furnished_Status := "Furnished", Parking_Space := 1
    Amenities := "Gym, Pool, Lift" }

def rowB : Row :=
  { Price_in_Lakhs := 200, Size_in_SqFt := 2000, Price_per_SqFt := 10000
    City := "B", Property_Type := "Villa", BHK := 3
    Furnished_Status := "Semi", Parking_Space := 2
    Amenities := "Garden, Security" }

def dfW : List Row := [rowA, rowB]

def critFull : FilterCriteria :=
  { priceMin := 100, priceMax := 200, sizeMin := 1000, sizeMax := 2000
    cities := [], propertyTypes := [], bhkValues := [] }

theorem claim2_witness :
    critFull.cities = [] ∧ critFull.propertyTypes = [] ∧ critFull.bhkValues = [] ∧
      (∀ r ∈ dfW, critFull.priceMin ≤ r.Price_in_Lakhs) ∧
      (∀ r ∈ dfW, r.Price_in_Lakhs ≤ critFull.priceMax) ∧
      (∀ r ∈ dfW, critFull.sizeMin ≤ r.Size_in_SqFt) ∧
      (∀ r ∈ dfW, r.Size_in_SqFt ≤ critFull.sizeMax) ∧
      applyFilters dfW critFull = dfW :=
  ⟨rfl, rfl, rfl, by decide, by decide, by decide, by decide,
    claim2_full_range_identity dfW critFull rfl rfl rfl
      (by decide) (by decide) (by decide) (by decide)⟩

theorem claim1_witness :
    (rowA ∈ applyFilters dfW critFull ↔ rowA ∈ dfW ∧ passes critFull rowA) ∧
      (applyFilters dfW critFull).Sublist dfW :=
  ⟨(claim1_filter_sound_complete_stable dfW critFull).1 rowA,
    (claim1_filter_sound_complete_stable dfW critFull).2⟩

/-- pandas `Series.mean` used throughout `app.py`: division of the sum by
the length.  On an empty series pandas yields NaN, embedded as `none`. -/
def meanD (xs : List ℚ) : ℚ := xs.sum / xs.length

/-- `Series.mean` with the NaN of the empty series made explicit. -/
def meanQ (xs : List ℚ) : Option ℚ := if xs.isEmpty then none else some (meanD xs)

/-- NaN-propagating subtraction, matching float arithmetic in the delta
expressions of `display_key_metrics`. -/
def subNaN : Option ℚ → Option ℚ → Option ℚ
  | some a, some b => some (a - b)
  | _, _ => none

/-- Greatest element of a list of naturals, `0` on the empty list. -/
def natMax (l : List ℕ) : ℕ := l.foldr max 0

/-- The largest multiplicity occurring in `l`. -/
def maxCount (l : List ℕ) : ℕ := natMax (l.map fun v => l.count v)

/-- pandas `Series.mode`: the ascending-sorted list of the values of
maximal frequency. -/
def pandasMode (l : List ℕ) : List ℕ :=
  List.insertionSort (· ≤ ·) (l.dedup.filter fun v => l.count v == maxCount l)

/-- `display_key_metrics` / `display_insights_summary`:
`filtered_df['BHK'].mode()[0] if not ... mode().empty else "N/A"`, the
`"N/A"` marker being `none`. -/
def commonBHK (view : List Row) : Option ℕ := (pandasMode (view.map Row.BHK)).head?

theorem le_natMax (l : List ℕ) : ∀ x ∈ l, x ≤ natMax l := by
  induction l with
  | nil => intro x hx; cases hx
  | cons a t ih =>
    intro x hx
    rcases List.mem_cons.mp hx with h | h
    · subst h; exact le_max_left _ _
    · exact le_trans (ih x h) (le_max_right _ _)

theorem natMax_mem (l : List ℕ) (h : l ≠ []) : natMax l ∈ l := by
  induction l with
  | nil => exact absurd rfl h
  | cons a t ih =>
    rcases t with _ | ⟨b, t'⟩
    · simp [natMax]
    · rcases le_total a (natMax (b :: t')) with hle | hle
      · have : natMax (a :: b :: t') = natMax (b :: t') := by
          simp [natMax] at hle ⊢
          omega
        rw [this]
        exact List.mem_cons_of_mem _ (ih (by simp))
      · have : natMax (a :: b :: t') = a := by
          simp [natMax] at hle ⊢
          omega
        rw [this]
        exact List.mem_cons_self _ _

theorem count_le_maxCount (l : List ℕ) (v : ℕ) : l.count v ≤ maxCount l := by
  by_cases hv : v ∈ l
  · exact le_natMax _ _ (List.mem_map_of_mem _ hv)
  · rw [List.count_eq_zero_of_not_mem hv]; exact Nat.zero_le _

theorem maxCount_attained (l : List ℕ) (h : l ≠ []) :
    ∃ v ∈ l, l.count v = maxCount l := by
  have hne : l.map (fun v => l.count v) ≠ [] := by
    simpa using h
  have := natMax_mem _ hne
  rcases List.mem_map.mp this with ⟨v, hv, hcount⟩
  exact ⟨v, hv, hcount⟩

theorem mem_pandasMode (l : List ℕ) (v : ℕ) :
    v ∈ pandasMode l ↔ v ∈ l ∧ l.count v = maxCount l := by
  unfold pandasMode
  simp [List.mem_filter, List.mem_dedup]

/-- C4.  On a non-empty view, the reported most-common BHK has maximal
frequency among BHK values and, among all tied maxima, it is the
smallest. -/
theorem claim4_mode_tiebreak (view : List Row) (h : view ≠ []) :
    ∃ m, commonBHK view = some m ∧
      (∀ v : ℕ, (view.map Row.BHK).count v ≤ (view.map Row.BHK).count m) ∧
      (∀ v : ℕ, (view.map Row.BHK).count v = (view.map Row.BHK).count m → m ≤ v) := by
  set l := view.map Row.BHK with hl
  have hlne : l ≠ [] := by simpa [hl] using h
  obtain ⟨v0, hv0, hv0c⟩ := maxCount_attained l hlne
  have hv0m : v0 ∈ pandasMode l := (mem_pandasMode l v0).mpr ⟨hv0, hv0c⟩
  have hsorted : (pandasMode l).Sorted (· ≤ ·) :=
    List.sorted_insertionSort _ _
  rcases hM : pandasMode l with _ | ⟨m, rest⟩
  · rw [hM] at hv0m; cases hv0m
  · have hmm : m ∈ pandasMode l := by rw [hM]; exact List.mem_cons_self _ _
    have hmc : l.count m = maxCount l := ((mem_pandasMode l m).mp hmm).2
    have hml : m ∈ l := ((mem_pandasMode l m).mp hmm).1
    refine ⟨m, ?_, ?_, ?_⟩
    · unfold commonBHK
      rw [← hl, hM]; rfl
    · intro v
      rw [hmc]; exact count_le_maxCount l v
    · intro v hv
      have hvmax : l.count v = maxCount l := by rw [hv, hmc]
      have hvl : v ∈ l := by
        by_contra hno
        rw [List.count_eq_zero_of_not_mem hno] at hvmax
        have : 0 < l.count m := List.count_pos_iff.mpr hml
        omega
      have hvm : v ∈ pandasMode l := (mem_pandasMode l v).mpr ⟨hvl, hvmax⟩
      rw [hM] at hvm
      rcases List.mem_cons.mp hvm with hvm | hvm
      · subst hvm; exact le_refl _
      · rw [hM] at hsorted
        exact List.rel_of_sorted_cons hsorted v hvm

/-- Records realizing the spec's scenario: BHK multiset `[2,2,3,3]`. -/
def rowBhk (b : ℕ) : Row :=
  { Price_in_Lakhs := 100, Size_in_SqFt := 1000, Price_per_SqFt := 10000
    City := "A", Property_Type := "Apartment", BHK := b
    Furnished_Status := "Furnished", Parking_Space := 1, Amenities := "" }

def viewTie : List Row := [rowBhk 2, rowBhk 2, rowBhk 3, rowBhk 3]

theorem claim4_witness :
    viewTie ≠ [] ∧ commonBHK viewTie = some 2 ∧
      (∃ m, commonBHK viewTie = some m ∧
        (∀ v : ℕ, (viewTie.map Row.BHK).count v ≤ (viewTie.map Row.BHK).count m) ∧
        (∀ v : ℕ, (viewTie.map Row.BHK).count v = (viewTie.map Row.BHK).count m → m ≤ v)) :=
  ⟨by decide, by decide, claim4_mode_tiebreak viewTie (by decide)⟩

/-- The five `st.metric` widgets of `display_key_metrics` (app.py lines
180-223).  Every delta argument is the string
`f"...{metric(view)-metric(df)...}" if len(filtered_df) != len(self.df)
else ""`; a suppressed delta (the empty string) is the outer `none`, and
the inner `Option ℚ` carries the NaN-ness of the float arithmetic. -/
structure KeyMetrics where
  totalProps : ℕ
  totalDelta : Option ℤ
  avgPrice : Option ℚ
  avgPriceDelta : Option (Option ℚ)
  avgSize : Option ℚ
  avgSizeDelta : Option (Option ℚ)
  avgPPS : Option ℚ
  avgPPSDelta : Option (Option ℚ)
  mostCommonBHK : Option ℕ
deriving DecidableEq

def keyMetrics (view base : List Row) : KeyMetrics :=
  { totalProps := view.length
    totalDelta :=
      if view.length ≠ base.length then some ((view.length : ℤ) - base.length) else none
    avgPrice := meanQ (view.map Row.Price_in_Lakhs)
    avgPriceDelta :=
      if view.length ≠ base.length then
        some (subNaN (meanQ (view.map Row.Price_in_Lakhs)) (meanQ (base.map Row.Price_in_Lakhs)))
      else none
    avgSize := meanQ (view.map Row.Size_in_SqFt)
    avgSizeDelta :=
      if view.length ≠ base.length then
        some (subNaN (meanQ (view.map Row.Size_in_SqFt)) (meanQ (base.map Row.Size_in_SqFt)))
      else none
    avgPPS := meanQ (view.map Row.Price_per_SqFt)
    avgPPSDelta :=
      if view.length ≠ base.length then
        some (subNaN (meanQ (view.map Row.Price_per_SqFt)) (meanQ (base.map Row.Price_per_SqFt)))
      else none
    mostCommonBHK := commonBHK view }

/-- C5.  Each of the four delta fields is reported exactly when the view
and the baseline have different cardinality, in which case it equals
`metric(view) - metric(baseline)`; when the cardinalities agree all four
deltas are suppressed. -/
theorem claim5_delta_iff (view base : List Row) :
    ((keyMetrics view base).totalDelta.isSome ↔ view.length ≠ base.length) ∧
      ((keyMetrics view base).avgPriceDelta.isSome ↔ view.length ≠ base.length) ∧
      ((keyMetrics view base).avgSizeDelta.isSome ↔ view.length ≠ base.length) ∧
      ((keyMetrics view base).avgPPSDelta.isSome ↔ view.length ≠ base.length) ∧
      (view.length ≠ base.length →
        (keyMetrics view base).totalDelta = some ((view.length : ℤ) - base.length) ∧
        (keyMetrics view base).avgPriceDelta =
          some (subNaN (meanQ (view.map Row.Price_in_Lakhs))
            (meanQ (base.map Row.Price_in_Lakhs))) ∧
        (keyMetrics view base).avgSizeDelta =
          some (subNaN (meanQ (view.map Row.Size_in_SqFt))
            (meanQ (base.map Row.Size_in_SqFt))) ∧
        (keyMetrics view base).avgPPSDelta =
          some (subNaN (meanQ (view.map Row.Price_per_SqFt))
            (meanQ (base.map Row.Price_per_SqFt)))) ∧
      (view.length = base.length →
        (keyMetrics view base).totalDelta = none ∧
        (keyMetrics view base).avgPriceDelta = none ∧
        (keyMetrics view base).avgSizeDelta = none ∧
        (keyMetrics view base).avgPPSDelta = none) := by
  by_cases h : view.length = base.length <;> simp [keyMetrics, h]

theorem claim5_witness :
    (((keyMetrics [rowA] dfW).totalDelta.isSome ↔ ([rowA] : List Row).length ≠ dfW.length) ∧
        (keyMetrics [rowA] dfW).totalDelta = some (-1)) ∧
      (keyMetrics dfW dfW).avgPriceDelta = none :=
  ⟨⟨(claim5_delta_iff [rowA] dfW).1, by decide⟩,
    ((claim5_delta_iff dfW dfW).2.2.2.2.2 rfl).2.1⟩

/-- Substring test on character lists. -/
def containsSub (pat : List Char) : List Char → Bool
  | [] => pat.isPrefixOf []
  | c :: t => pat.isPrefixOf (c :: t) || containsSub pat t

/-- `filtered_df['Amenities'].str.contains(amenity, case=False, na=False)`
for one record: case-insensitive substring match against the free-text
amenities field (the keywords of `common_amenities` contain no regex
metacharacters, so pandas' regex match coincides with a substring test). -/
def hasAmenity (r : Row) (a : String) : Bool :=
  containsSub a.toLower.toList r.Amenities.toLower.toList

/-- The fixed reference list of `display_property_features_analysis`. -/
def commonAmenities : List String :=
  ["Gym", "Pool", "Clubhouse", "Garden", "Park", "Security", "Lift", "Power Backup"]

def withPart (view : List Row) (a : String) : List Row :=
  view.filter fun r => hasAmenity r a

def withoutPart (view : List Row) (a : String) : List Row :=
  view.filter fun r => ! hasAmenity r a

def avgWith (view : List Row) (a : String) : Option ℚ :=
  meanQ ((withPart view a).map Row.Price_per_SqFt)

def avgWithout (view : List Row) (a : String) : Option ℚ :=
  meanQ ((withoutPart view a).map Row.Price_per_SqFt)

/-- `((avg_price_with / avg_price_without) - 1) * 100 if avg_price_without > 0
else 0` — a NaN `avg_price_without` (empty partition) compares false with
`> 0`, so the fallback `0` is taken. -/
def premiumOf : Option ℚ → Option ℚ → Option ℚ
  | aw, some v => if 0 < v then aw.map fun w => (w / v - 1) * 100 else some 0
  | _, none => some 0

def premiumPct (view : List Row) (a : String) : Option ℚ :=
  premiumOf (avgWith view a) (avgWithout view a)

/-- One row appended to `amenity_analysis`. -/
structure AmenityRow where
  amenity : String
  count : ℕ
  percentage : ℚ
  avgPriceWith : Option ℚ
  avgPriceWithout : Option ℚ
  pricePremium : Option ℚ
deriving DecidableEq

def amenityRow (view : List Row) (a : String) : AmenityRow :=
  { amenity := a
    count := (withPart view a).length
    percentage := ((withPart view a).length : ℚ) / view.length * 100
    avgPriceWith := avgWith view a
    avgPriceWithout := avgWithout view a
    pricePremium := premiumPct view a }

/-- The `amenity_analysis` table: the loop over `common_amenities` appends
a row only when `has_amenity.any()` holds. -/
def amenityTable (view : List Row) : List AmenityRow :=
  commonAmenities.filterMap fun a =>
    if view.any (fun r => hasAmenity r a) then some (amenityRow view a) else none

theorem filterMap_ite {α β : Type} (p : α → Bool) (f : α → β) (l : List α) :
    (l.filterMap fun a => if p a then some (f a) else none) = (l.filter p).map f := by
  induction l with
  | nil => rfl
  | cons a t ih =>
    by_cases h : p a <;> simp [List.filterMap_cons, List.filter_cons, h, ih]

/-- C10.  The amenity table has one row per reference keyword matched by
at least one record of the view, in reference-list order; a keyword that
matches no record is omitted entirely (no zero-premium row). -/
theorem claim10_amenity_omission (view : List Row) :
    (amenityTable view).map AmenityRow.amenity =
      commonAmenities.filter fun a => view.any fun r => hasAmenity r a := by
  unfold amenityTable
  rw [filterMap_ite (fun a => view.any fun r => hasAmenity r a) (amenityRow view)]
  rw [List.map_map]
  have : (AmenityRow.amenity ∘ amenityRow view) = fun a : String => a :=
    funext fun a => rfl
  rw [this]
  simp

theorem meanQ_nonneg (xs : List ℚ) (h : ∀ x ∈ xs, 0 ≤ x) :
    ∀ v, meanQ xs = some v → 0 ≤ v := by
  intro v hv
  unfold meanQ meanD at hv
  split at hv
  · cases hv
  · cases hv
    exact div_nonneg (List.sum_nonneg h) (by positivity)

/-- C6.  For a view whose price-per-sqft values are non-negative (the
dataset invariant), the amenity premium is the explicit fallback `0`
whenever the `without` partition is empty (NaN mean) or has mean `0`;
otherwise it is `(mean(with)/mean(without) - 1) * 100`. -/
theorem claim6_premium_fallback (view : List Row) (a : String)
    (hnn : ∀ r ∈ view, 0 ≤ r.Price_per_SqFt) :
    (avgWithout view a = none ∨ avgWithout view a = some 0 →
      premiumPct view a = some 0) ∧
    (∀ v, avgWithout view a = some v → v ≠ 0 →
      premiumPct view a = (avgWith view a).map fun w => (w / v - 1) * 100) := by
  constructor
  · rintro (h | h) <;> rw [premiumPct, h]
    · rcases avgWith view a with _ | w <;> rfl
    · simp [premiumOf]
  · intro v hv hv0
    have hvn : 0 ≤ v := by
      refine meanQ_nonneg _ ?_ v hv
      intro x hx
      rcases List.mem_map.mp hx with ⟨r, hr, hrx⟩
      exact hrx ▸ hnn r (List.mem_of_mem_filter hr)
    have hpos : 0 < v := lt_of_le_of_ne hvn (Ne.symm hv0)
    rw [premiumPct, hv]
    simp [premiumOf, hpos]

theorem claim6_witness :
    (∀ r ∈ dfW, 0 ≤ r.Price_per_SqFt) ∧
      ((avgWithout dfW "Gym" = none ∨ avgWithout dfW "Gym" = some 0 →
          premiumPct dfW "Gym" = some 0) ∧
        (∀ v, avgWithout dfW "Gym" = some v → v ≠ 0 →
          premiumPct dfW "Gym" = (avgWith dfW "Gym").map fun w => (w / v - 1) * 100)) :=
  ⟨by decide, claim6_premium_fallback dfW "Gym" (by decide)⟩

/-- The sum of products of deviations from the means, the common kernel of
pandas' Pearson computation: both the covariance numerator and (with
`ys = xs`) the variance terms of the denominator. -/
def covSum (xs ys : List ℚ) : ℚ :=
  ((xs.zip ys).map fun p => (p.1 - meanD xs) * (p.2 - meanD ys)).sum

/-- Pearson correlation of two columns as computed by `DataFrame.corr` /
`Series.corr`: `covSum / sqrt(var_x * var_y)`.  A zero denominator (a
constant column, e.g. a single-row view) yields float NaN, embedded as
`none`. -/
noncomputable def pearson (xs ys : List ℚ) : Option ℝ :=
  if covSum xs xs = 0 ∨ covSum ys ys = 0 then none
  else some ((covSum xs ys : ℝ) / Real.sqrt ((covSum xs xs : ℝ) * (covSum ys ys : ℝ)))

/-- One entry of `corr_matrix = filtered_df[numerical_cols].corr()`,
indexed by the numeric-column projections. -/
noncomputable def corrEntry (view : List Row) (f g : Row → ℚ) : Option ℝ :=
  pearson (view.map f) (view.map g)

theorem covSum_comm (xs ys : List ℚ) : covSum xs ys = covSum ys xs := by
  unfold covSum
  conv_rhs => rw [← List.zip_swap xs ys]
  rw [List.map_map]
  apply congrArg List.sum
  apply List.map_congr_left
  intro p _
  simp only [Function.comp_apply, Prod.fst_swap, Prod.snd_swap]
  ring

theorem mem_zip_self {α : Type} : ∀ (l : List α) (p : α × α), p ∈ l.zip l → p.1 = p.2 := by
  intro l
  induction l with
  | nil => intro p hp; cases hp
  | cons a t ih =>
    intro p hp
    rcases List.mem_cons.mp hp with h | h
    · subst h; rfl
    · exact ih p h

theorem covSum_self_nonneg (xs : List ℚ) : 0 ≤ covSum xs xs := by
  unfold covSum
  apply List.sum_nonneg
  intro x hx
  rcases List.mem_map.mp hx with ⟨p, hp, rfl⟩
  have h12 : p.1 = p.2 := mem_zip_self xs p hp
  rw [h12]
  exact mul_self_nonneg _

theorem pearson_comm (xs ys : List ℚ) : pearson xs ys = pearson ys xs := by
  unfold pearson
  refine if_congr or_comm rfl ?_
  rw [covSum_comm ys xs, mul_comm]

theorem pearson_self (xs : List ℚ) (h : covSum xs xs ≠ 0) : pearson xs xs = some 1 := by
  unfold pearson
  rw [if_neg (by tauto)]
  have hpos : (0 : ℝ) < (covSum xs xs : ℝ) := by
    have h0 : (0 : ℚ) < covSum xs xs := lt_of_le_of_ne (covSum_self_nonneg xs) (Ne.symm h)
    exact_mod_cast h0
  rw [Real.sqrt_mul_self (le_of_lt hpos)]
  rw [div_self (ne_of_gt hpos)]

/-- C7 (amended).  The correlation matrix is symmetric for every view and
every pair of numeric columns; a diagonal entry is exactly `1.0` whenever
the column has a non-zero sum of squared deviations over the view (for a
constant column — in particular any single-row view — the entry is NaN,
see the counterexample). -/
theorem claim7_symm_diag :
    (∀ (view : List Row) (f g : Row → ℚ), corrEntry view f g = corrEntry view g f) ∧
      (∀ (view : List Row) (f : Row → ℚ),
        covSum (view.map f) (view.map f) ≠ 0 → corrEntry view f f = some 1) :=
  ⟨fun view f g => pearson_comm (view.map f) (view.map g),
    fun view f h => pearson_self (view.map f) h⟩

/-- C7 counterexample: on the one-record view `[rowA]` (at least two
numeric attributes exist on `Row`), the diagonal correlation entry of the
price column is NaN, not `1.0`. -/
theorem claim7_counterexample :
    corrEntry [rowA] Row.Price_in_Lakhs Row.Price_in_Lakhs = none ∧
      corrEntry [rowA] Row.Price_in_Lakhs Row.Price_in_Lakhs ≠ some 1 := by
  have h : covSum ([rowA].map Row.Price_in_Lakhs) ([rowA].map Row.Price_in_Lakhs) = 0 := by
    simp [covSum, meanD, rowA]
  have hn : corrEntry [rowA] Row.Price_in_Lakhs Row.Price_in_Lakhs = none := by
    unfold corrEntry pearson
    rw [if_pos (Or.inl h)]
  exact ⟨hn, by rw [hn]; exact fun hc => Option.noConfusion hc⟩

theorem covSum_dfW_price_ne :
    covSum (dfW.map Row.Price_in_Lakhs) (dfW.map Row.Price_in_Lakhs) ≠ 0 := by
  simp [covSum, meanD, dfW, rowA, rowB]
  norm_num

theorem claim7_witness :
    covSum (dfW.map Row.Price_in_Lakhs) (dfW.map Row.Price_in_Lakhs) ≠ 0 ∧
      corrEntry dfW Row.Price_in_Lakhs Row.Price_in_Lakhs = some 1 :=
  ⟨covSum_dfW_price_ne, claim7_symm_diag.2 dfW Row.Price_in_Lakhs covSum_dfW_price_ne⟩

/-- An entry of `corr_pairs = corr_matrix.unstack()`: a (level-0 label,
level-1 label, coefficient) triple.  Coefficients are embedded as exact
rationals (the extraction code only compares and reorders them); `none`
is a NaN coefficient. -/
abbrev CorrPair := String × String × Option ℚ

/-- `corr_matrix.unstack()`: every ordered pair of attribute labels, the
first level running over the matrix columns in order.  Self-pairs are
included and each unordered pair occurs in both orientations. -/
def unstackM (names : List String) (m : String → String → Option ℚ) : List CorrPair :=
  names.flatMap fun a => names.map fun b => (a, b, m a b)

/-- Value of a coefficient with NaN below every number, so that a
descending sort places NaN last, as `sort_values(ascending=False)` does
(`na_position='last'`). -/
def obot : Option ℚ → WithBot ℚ
  | none => ⊥
  | some v => (v : WithBot ℚ)

/-- "Comes no later in the descending order": the second coefficient is
at most the first. -/
def corrGE (x y : CorrPair) : Prop := obot y.2.2 ≤ obot x.2.2

instance : DecidableRel corrGE := fun x y =>
  inferInstanceAs (Decidable (obot y.2.2 ≤ obot x.2.2))

instance : IsTotal CorrPair corrGE :=
  ⟨fun x y => (le_total (obot x.2.2) (obot y.2.2)).symm⟩

instance : IsTrans CorrPair corrGE :=
  ⟨fun _ _ _ hxy hyz => le_trans hyz hxy⟩

/-- `corr_pairs.sort_values(ascending=False)` (ties in input order). -/
def sortedPairs (names : List String) (m : String → String → Option ℚ) : List CorrPair :=
  List.insertionSort corrGE (unstackM names m)

/-- The mask `corr_pairs < 1`; a NaN coefficient compares false. -/
def isBelowOne (e : CorrPair) : Bool :=
  match e.2.2 with
  | some v => decide (v < 1)
  | none => false

/-- `top_pos = corr_pairs[corr_pairs < 1].head(5)`. -/
def topPos (names : List String) (m : String → String → Option ℚ) : List CorrPair :=
  ((sortedPairs names m).filter isBelowOne).take 5

/-- `top_neg = corr_pairs.tail(5)`: the last five entries of the
descending-sorted series. -/
def topNeg (names : List String) (m : String → String → Option ℚ) : List CorrPair :=
  (sortedPairs names m).drop ((sortedPairs names m).length - 5)

/-- C8 (amended).  What the extraction actually produces: `sortedPairs`
is a descending-sorted (NaN last) permutation of all ordered label pairs;
`topPos` consists of at most five entries, each with a (non-NaN)
coefficient strictly below `1` — so every coefficient-1 pair is excluded,
self-pair or not — in descending order, and any strictly-sub-1 entry not
in it is dominated by every member; `topNeg` is the trailing
`min 5 N` entries of the descending order (so it is itself descending,
not ascending, and self-pairs are not excluded), and any entry not in it
dominates every member. -/
theorem claim8_extraction_props (names : List String) (m : String → String → Option ℚ) :
    (sortedPairs names m).Perm (unstackM names m) ∧
      (sortedPairs names m).Sorted corrGE ∧
      (∀ e ∈ topPos names m, ∃ v, e.2.2 = some v ∧ v < 1) ∧
      (topPos names m).length ≤ 5 ∧
      (topPos names m).Sorted corrGE ∧
      (∀ e ∈ unstackM names m, isBelowOne e = true →
        e ∈ topPos names m ∨ ∀ f ∈ topPos names m, corrGE f e) ∧
      (topNeg names m).length = min 5 (unstackM names m).length ∧
      (topNeg names m).Sorted corrGE ∧
      (∀ e ∈ unstackM names m, e ∈ topNeg names m ∨ ∀ f ∈ topNeg names m, corrGE e f) := by
  have hperm : (sortedPairs names m).Perm (unstackM names m) :=
    List.perm_insertionSort corrGE (unstackM names m)
  have hsorted : (sortedPairs names m).Sorted corrGE :=
    List.sorted_insertionSort corrGE (unstackM names m)
  have hfil : ((sortedPairs names m).filter isBelowOne).Sorted corrGE :=
    List.Pairwise.sublist (List.filter_sublist _) hsorted
  refine ⟨hperm, hsorted, ?_, ?_, ?_, ?_, ?_, ?_, ?_⟩
  · intro e he
    have := List.of_mem_filter (List.mem_of_mem_take he)
    revert this
    unfold isBelowOne
    rcases e.2.2 with _ | v
    · intro h; cases h
    · intro h; exact ⟨v, rfl, of_decide_eq_true h⟩
  · exact le_trans (List.length_take_le 5 _) (le_refl _)
  · exact List.Pairwise.sublist (List.take_sublist _ _) hfil
  · intro e he hbelow
    set L := (sortedPairs names m).filter isBelowOne with hL
    have heL : e ∈ L := by
      rw [hL]
      exact List.mem_filter.mpr ⟨hperm.mem_iff.mpr he, hbelow⟩
    have hsplit : L.take 5 ++ L.drop 5 = L := List.take_append_drop 5 L
    have hpw : L.Sorted corrGE := hfil
    rw [← hsplit] at heL hpw
    rcases List.mem_append.mp heL with h | h
    · exact Or.inl h
    · right
      intro f hf
      exact (List.pairwise_append.mp hpw).2.2 f hf e h
  · rw [topNeg, List.length_drop, hperm.length_eq]
    omega
  · exact List.Pairwise.sublist (List.drop_sublist _ _) hsorted
  · intro e he
    set S := sortedPairs names m with hS
    set k := S.length - 5 with hk
    have heS : e ∈ S := hperm.mem_iff.mpr he
    have hsplit : S.take k ++ S.drop k = S := List.take_append_drop k S
    have hpw : S.Sorted corrGE := hsorted
    rw [← hsplit] at heS hpw
    rcases List.mem_append.mp heS with h | h
    · right
      intro f hf
      exact (List.pairwise_append.mp hpw).2.2 e h f hf
    · exact Or.inl h

/-- The attribute labels and matrix for the C8 counterexample: the
symmetric matrix with diagonal `1`, a perfect correlation `1` between the
price and size columns, correlation `0` between BHK and price, and `-1`
between BHK and size (realizable, e.g., by suitable record values). -/
def namesEx : List String := ["BHK", "Price_in_Lakhs", "Size_in_SqFt"]

def mEx (a b : String) : Option ℚ :=
  if a = b then some 1
  else if (a = "Price_in_Lakhs" ∧ b = "Size_in_SqFt") ∨
      (a = "Size_in_SqFt" ∧ b = "Price_in_Lakhs") then some 1
  else if (a = "BHK" ∧ b = "Price_in_Lakhs") ∨
      (a = "Price_in_Lakhs" ∧ b = "BHK") then some 0
  else some (-1)

/-- C8 counterexample.  On `mEx`: the distinct pair (price, size) has
coefficient exactly `1` yet appears nowhere in the top-5 positive list
(the filter `< 1` removes it, contradicting "excluding coefficient 1.0
only for self-pairs"); the bottom list starts at coefficient `1` and ends
at `-1`, so it is sorted descending, not ascending, and it contains a
self-pair; and `topPos` holds both orientations of the same unordered
pair rather than distinct unordered pairs. -/
theorem claim8_counterexample :
    mEx "Price_in_Lakhs" "Size_in_SqFt" = some 1 ∧
      ("Price_in_Lakhs" : String) ≠ "Size_in_SqFt" ∧
      (∀ e ∈ topPos namesEx mEx, e.2.2 ≠ some 1) ∧
      ((topNeg namesEx mEx).head?.map (fun e => e.2.2) = some (some 1)) ∧
      ((topNeg namesEx mEx).getLast?.map (fun e => e.2.2) = some (some (-1))) ∧
      (∃ e ∈ topNeg namesEx mEx, e.1 = e.2.1) ∧
      (("BHK", "Price_in_Lakhs", some (0 : ℚ)) ∈ topPos namesEx mEx ∧
        ("Price_in_Lakhs", "BHK", some (0 : ℚ)) ∈ topPos namesEx mEx) := by
  decide

def namesW : List String := ["BHK", "Price_in_Lakhs"]

def mW (a b : String) : Option ℚ := if a = b then some 1 else some 0

theorem claim8_witness :
    (sortedPairs namesW mW).Perm (unstackM namesW mW) ∧
      (sortedPairs namesW mW).Sorted corrGE ∧
      (∀ e ∈ topPos namesW mW, ∃ v, e.2.2 = some v ∧ v < 1) ∧
      (topPos namesW mW).length ≤ 5 ∧
      (topPos namesW mW).Sorted corrGE ∧
      (∀ e ∈ unstackM namesW mW, isBelowOne e = true →
        e ∈ topPos namesW mW ∨ ∀ f ∈ topPos namesW mW, corrGE f e) ∧
      (topNeg namesW mW).length = min 5 (unstackM namesW mW).length ∧
      (topNeg namesW mW).Sorted corrGE ∧
      (∀ e ∈ unstackM namesW mW, e ∈ topNeg namesW mW ∨ ∀ f ∈ topNeg namesW mW, corrGE e f) :=
  claim8_extraction_props namesW mW

/-- Group keys of `filtered_df.groupby('City')`: the distinct city names
in ascending order. -/
def cityKeys (view : List Row) : List String :=
  List.insertionSort (· ≤ ·) (view.map Row.City).dedup

/-- `filtered_df.groupby('City')['Price_in_Lakhs'].mean()`. -/
def cityMeanPrices (view : List Row) : List (String × ℚ) :=
  (cityKeys view).map fun c =>
    (c, meanD ((view.filter fun r => r.City == c).map Row.Price_in_Lakhs))

/-- `Series.idxmax`: the first index attaining the maximum; on an empty
series it raises `ValueError`, embedded as `Except.error`. -/
def idxmaxP : List (String × ℚ) → Except Unit (String × ℚ)
  | [] => Except.error ()
  | p :: t => Except.ok (t.foldl (fun best q => if best.2 < q.2 then q else best) p)

def m2sum (xs : List ℚ) : ℚ := (xs.map fun x => (x - meanD xs) ^ 2).sum

def m3sum (xs : List ℚ) : ℚ := (xs.map fun x => (x - meanD xs) ^ 3).sum

/-- pandas `Series.skew` (`nanskew`): NaN when fewer than three values;
`0` when the second central moment vanishes; otherwise the adjusted
Fisher-Pearson coefficient `n*sqrt(n-1)/(n-2) * m3/m2^{3/2}`. -/
noncomputable def skewQ (xs : List ℚ) : Option ℝ :=
  if xs.length < 3 then none
  else if m2sum xs = 0 then some 0
  else some (((xs.length : ℝ) * Real.sqrt ((xs.length : ℝ) - 1) / ((xs.length : ℝ) - 2)) *
    ((m3sum xs : ℝ) / Real.sqrt ((m2sum xs : ℝ)) ^ 3))

/-- The five insight templates of `display_insights_summary`, tagged by
rule, carrying the data interpolated into the message text. -/
inductive Insight where
  | priceSkewI (rightSkewed : Bool)
  | sizePriceI (strongPositive : Bool)
  | topCityI (city : String) (avgPrice : ℚ)
  | commonBHKI (bhk : Option ℕ)
  | ppsRangeI (mn mx avg : Option ℚ)
deriving DecidableEq

/-- Rule 1: `if abs(price_skew) > 1`, labelled right-skewed iff
`price_skew > 0`.  A NaN skew compares false and suppresses the rule. -/
noncomputable def skewInsights (view : List Row) : List Insight :=
  match skewQ (view.map Row.Price_in_Lakhs) with
  | some v => if 1 < |v| then [Insight.priceSkewI (decide (0 < v))] else []
  | none => []

/-- Rule 2: `if size_price_corr > 0.5 ... elif size_price_corr < 0`; a
NaN correlation suppresses the rule. -/
noncomputable def corrInsights (view : List Row) : List Insight :=
  match pearson (view.map Row.Size_in_SqFt) (view.map Row.Price_in_Lakhs) with
  | some c =>
    if 1 / 2 < c then [Insight.sizePriceI true]
    else if c < 0 then [Insight.sizePriceI false]
    else []
  | none => []

/-- Rule 3: `if 'City' in filtered_df.columns`, the
`groupby('City')...idxmax()` insight — which raises on an empty view. -/
def cityInsights (view : List Row) (hasCity : Bool) : Except Unit (List Insight) :=
  if hasCity then
    match idxmaxP (cityMeanPrices view) with
    | Except.error e => Except.error e
    | Except.ok p => Except.ok [Insight.topCityI p.1 p.2]
  else Except.ok []

/-- Rule 4: `if 'BHK' in filtered_df.columns`, always appended (with the
`'N/A'` marker on an empty view). -/
def bhkInsights (view : List Row) (hasBHK : Bool) : List Insight :=
  if hasBHK then [Insight.commonBHKI (commonBHK view)] else []

/-- Rule 5: the price-per-sqft range insight, always appended. -/
def ppsInsight (view : List Row) : Insight :=
  Insight.ppsRangeI (view.map Row.Price_per_SqFt).min? (view.map Row.Price_per_SqFt).max?
    (meanQ (view.map Row.Price_per_SqFt))

/-- `display_insights_summary` (app.py lines 902-944): the rules are
evaluated in fixed order and their insights concatenated; the city rule's
`idxmax` exception propagates. -/
noncomputable def generateInsights (view : List Row) (hasCity hasBHK : Bool) :
    Except Unit (List Insight) :=
  match cityInsights view hasCity with
  | Except.error e => Except.error e
  | Except.ok i3 =>
    Except.ok (skewInsights view ++ corrInsights view ++ i3 ++
      bhkInsights view hasBHK ++ [ppsInsight view])

/-- C3 counterexample.  On the empty filtered view, with the city and BHK
columns present, the insight generation raises (the `ValueError` of
`idxmax` on an empty grouping) instead of returning a neutral marker. -/
theorem claim3_counterexample :
    generateInsights [] true true = Except.error () ∧
      ∀ l : List Insight, generateInsights [] true true ≠ Except.ok l := by
  have h : generateInsights [] true true = Except.error () := rfl
  exact ⟨h, fun l hc => by rw [h] at hc; cases hc⟩

/-- C3 (amended).  On the zero-record view the engine does not return a
neutral marker for every metric: the three mean metrics and the
price-per-sqft min/max are pandas NaN (`none`), rendered without a guard;
only the mode-BHK metric is guarded with the explicit `"N/A"` marker
(`commonBHK [] = none` feeding the guard); and the insight generator
raises an exception as soon as a city column is present. -/
theorem claim3_empty_view_behavior :
    meanQ (([] : List Row).map Row.Price_in_Lakhs) = none ∧
      meanQ (([] : List Row).map Row.Size_in_SqFt) = none ∧
      meanQ (([] : List Row).map Row.Price_per_SqFt) = none ∧
      commonBHK [] = none ∧
      (([] : List Row).map Row.Price_per_SqFt).min? = none ∧
      (([] : List Row).map Row.Price_per_SqFt).max? = none ∧
      generateInsights [] true true = Except.error () :=
  ⟨rfl, rfl, rfl, rfl, rfl, rfl, rfl⟩

theorem foldlMax_mem (t : List (String × ℚ)) :
    ∀ p : String × ℚ,
      t.foldl (fun best q => if best.2 < q.2 then q else best) p ∈ p :: t := by
  induction t with
  | nil => intro p; exact List.mem_singleton.mpr rfl
  | cons q t' ih =>
    intro p
    rw [List.foldl_cons]
    by_cases h : p.2 < q.2
    · rw [if_pos h]
      exact List.mem_cons_of_mem p (ih q)
    · rw [if_neg h]
      rcases List.mem_cons.mp (ih p) with h' | h'
      · rw [h']; exact List.mem_cons_self _ _
      · exact List.mem_cons_of_mem p (List.mem_cons_of_mem q h')

theorem foldlMax_ge (t : List (String × ℚ)) :
    ∀ p : String × ℚ,
      p.2 ≤ (t.foldl (fun best q => if best.2 < q.2 then q else best) p).2 ∧
        ∀ x ∈ t, x.2 ≤ (t.foldl (fun best q => if best.2 < q.2 then q else best) p).2 := by
  induction t with
  | nil => intro p; exact ⟨le_refl _, fun x hx => absurd hx (List.not_mem_nil x)⟩
  | cons q t' ih =>
    intro p
    rw [List.foldl_cons]
    by_cases h : p.2 < q.2
    · rw [if_pos h]
      refine ⟨le_trans (le_of_lt h) (ih q).1, ?_⟩
      intro x hx
      rcases List.mem_cons.mp hx with h' | h'
      · rw [h']; exact (ih q).1
      · exact (ih q).2 x h'
    · rw [if_neg h]
      refine ⟨(ih p).1, ?_⟩
      intro x hx
      rcases List.mem_cons.mp hx with h' | h'
      · rw [h']; exact le_trans (not_lt.mp h) (ih p).1
      · exact (ih p).2 x h'

/-- `idxmax` of a non-empty series returns a maximizer. -/
theorem idxmaxP_spec (l : List (String × ℚ)) (h : l ≠ []) :
    ∃ p, idxmaxP l = Except.ok p ∧ p ∈ l ∧ ∀ q ∈ l, q.2 ≤ p.2 := by
  rcases l with _ | ⟨p0, t⟩
  · exact absurd rfl h
  · refine ⟨_, rfl, foldlMax_mem t p0, ?_⟩
    intro x hx
    rcases List.mem_cons.mp hx with h' | h'
    · rw [h']; exact (foldlMax_ge t p0).1
    · exact (foldlMax_ge t p0).2 x h'

theorem cityMeanPrices_ne_nil (view : List Row) (h : view ≠ []) :
    cityMeanPrices view ≠ [] := by
  unfold cityMeanPrices cityKeys
  intro hc
  rcases List.map_eq_nil_iff.mp hc with hk
  have hlen := congrArg List.length hk
  rw [List.length_insertionSort] at hlen
  have : (view.map Row.City).dedup = [] := List.length_eq_zero.mp hlen
  rw [List.dedup_eq_nil] at this
  exact h (List.map_eq_nil_iff.mp this)

theorem skewInsights_spec (view : List Row) :
    (skewInsights view ≠ [] ↔
      ∃ v, skewQ (view.map Row.Price_in_Lakhs) = some v ∧ 1 < |v|) ∧
      (∀ v, skewQ (view.map Row.Price_in_Lakhs) = some v → 1 < |v| →
        ∃ b : Bool, skewInsights view = [Insight.priceSkewI b] ∧ (b = true ↔ 0 < v)) ∧
      (skewInsights view).length ≤ 1 := by
  unfold skewInsights
  cases h : skewQ (view.map Row.Price_in_Lakhs) with
  | none => simp
  | some v =>
    by_cases habs : 1 < |v|
    · simp only [if_pos habs]
      refine ⟨by simp [habs], ?_, by simp⟩
      intro w hw _
      cases hw
      exact ⟨decide (0 < v), rfl, by simp⟩
    · simp only [if_neg habs]
      refine ⟨by simp [habs], ?_, by simp⟩
      intro w hw habs'
      cases hw
      exact absurd habs' habs

theorem corrInsights_spec (view : List Row) :
    (corrInsights view ≠ [] ↔
      ∃ c, pearson (view.map Row.Size_in_SqFt) (view.map Row.Price_in_Lakhs) = some c ∧
        (1 / 2 < c ∨ c < 0)) ∧
      (corrInsights view).length ≤ 1 := by
  unfold corrInsights
  cases h : pearson (view.map Row.Size_in_SqFt) (view.map Row.Price_in_Lakhs) with
  | none => simp
  | some c =>
    by_cases h1 : 1 / 2 < c
    · simp only [if_pos h1]
      exact ⟨⟨fun _ => ⟨c, rfl, Or.inl h1⟩, fun _ => by simp⟩, by simp⟩
    · by_cases h2 : c < 0
      · simp only [if_neg h1, if_pos h2]
        exact ⟨⟨fun _ => ⟨c, rfl, Or.inr h2⟩, fun _ => by simp⟩, by simp⟩
      · simp only [if_neg h1, if_neg h2]
        refine ⟨⟨fun hne => absurd rfl hne, ?_⟩, by simp⟩
        rintro ⟨c', hc', hcc⟩
        cases hc'
        rcases hcc with hcc | hcc
        · exact absurd hcc h1
        · exact absurd hcc h2

/-- C9.  On a non-empty view the generator returns (no exception) the
concatenation, in fixed rule order, of: the skewness insight exactly when
`|skew| > 1` (labelled right-skewed iff `skew > 0`); the size-price
insight exactly when the correlation is `> 0.5` or `< 0`; the
highest-mean-price city insight exactly when a city column exists; the
most-common-BHK insight exactly when a BHK column exists; and always the
price-per-sqft range insight — between 1 and 5 insights in total. -/
theorem claim9_insight_rules (view : List Row) (hasCity hasBHK : Bool) (hne : view ≠ []) :
    ∃ i3, cityInsights view hasCity = Except.ok i3 ∧
      generateInsights view hasCity hasBHK =
        Except.ok (skewInsights view ++ corrInsights view ++ i3 ++
          bhkInsights view hasBHK ++ [ppsInsight view]) ∧
      (1 ≤ (skewInsights view ++ corrInsights view ++ i3 ++
            bhkInsights view hasBHK ++ [ppsInsight view]).length ∧
        (skewInsights view ++ corrInsights view ++ i3 ++
            bhkInsights view hasBHK ++ [ppsInsight view]).length ≤ 5) ∧
      (skewInsights view ≠ [] ↔
        ∃ v, skewQ (view.map Row.Price_in_Lakhs) = some v ∧ 1 < |v|) ∧
      (∀ v, skewQ (view.map Row.Price_in_Lakhs) = some v → 1 < |v| →
        ∃ b : Bool, skewInsights view = [Insight.priceSkewI b] ∧ (b = true ↔ 0 < v)) ∧
      (corrInsights view ≠ [] ↔
        ∃ c, pearson (view.map Row.Size_in_SqFt) (view.map Row.Price_in_Lakhs) = some c ∧
          (1 / 2 < c ∨ c < 0)) ∧
      (hasCity = true →
        ∃ p, p ∈ cityMeanPrices view ∧ (∀ q ∈ cityMeanPrices view, q.2 ≤ p.2) ∧
          i3 = [Insight.topCityI p.1 p.2]) ∧
      (hasCity = false → i3 = []) ∧
      (hasBHK = true → bhkInsights view hasBHK = [Insight.commonBHKI (commonBHK view)]) ∧
      (hasBHK = false → bhkInsights view hasBHK = []) := by
  have hs := skewInsights_spec view
  have hco := corrInsights_spec view
  have hbl : (bhkInsights view hasBHK).length ≤ 1 := by
    cases hasBHK <;> simp [bhkInsights]
  have hbt : hasBHK = true → bhkInsights view hasBHK = [Insight.commonBHKI (commonBHK view)] := by
    intro h; rw [h]; rfl
  have hbf : hasBHK = false → bhkInsights view hasBHK = [] := by
    intro h; rw [h]; rfl
  cases hasCity with
  | false =>
    refine ⟨[], rfl, rfl, ?_, hs.1, hs.2.1, hco.1, ?_, fun _ => rfl, hbt, hbf⟩
    · have h1 := hs.2.2
      have h2 := hco.2
      simp only [List.length_append, List.length_cons, List.length_nil]
      omega
    · intro h; cases h
  | true =>
    obtain ⟨p, hok, hmem, hmax⟩ :=
      idxmaxP_spec (cityMeanPrices view) (cityMeanPrices_ne_nil view hne)
    have hcity : cityInsights view true = Except.ok [Insight.topCityI p.1 p.2] := by
      simp [cityInsights, hok]
    have hgen : generateInsights view true hasBHK =
        Except.ok (skewInsights view ++ corrInsights view ++ [Insight.topCityI p.1 p.2] ++
          bhkInsights view hasBHK ++ [ppsInsight view]) := by
      unfold generateInsights
      rw [hcity]
    refine ⟨[Insight.topCityI p.1 p.2], hcity, hgen, ?_, hs.1, hs.2.1, hco.1,
      ?_, ?_, hbt, hbf⟩
    · have h1 := hs.2.2
      have h2 := hco.2
      simp only [List.length_append, List.length_cons, List.length_nil]
      omega
    · exact fun _ => ⟨p, hmem, hmax, rfl⟩
    · intro h; cases h

theorem claim9_witness :
    dfW ≠ [] ∧
      (∃ i3, cityInsights dfW true = Except.ok i3 ∧
        generateInsights dfW true true =
          Except.ok (skewInsights dfW ++ corrInsights dfW ++ i3 ++
            bhkInsights dfW true ++ [ppsInsight dfW]) ∧
        (1 ≤ (skewInsights dfW ++ corrInsights dfW ++ i3 ++
              bhkInsights dfW true ++ [ppsInsight dfW]).length ∧
          (skewInsights dfW ++ corrInsights dfW ++ i3 ++
              bhkInsights dfW true ++ [ppsInsight dfW]).length ≤ 5) ∧
        (skewInsights dfW ≠ [] ↔
          ∃ v, skewQ (dfW.map Row.Price_in_Lakhs) = some v ∧ 1 < |v|) ∧
        (∀ v, skewQ (dfW.map Row.Price_in_Lakhs) = some v → 1 < |v| →
          ∃ b : Bool, skewInsights dfW = [Insight.priceSkewI b] ∧ (b = true ↔ 0 < v)) ∧
        (corrInsights dfW ≠ [] ↔
          ∃ c, pearson (dfW.map Row.Size_in_SqFt) (dfW.map Row.Price_in_Lakhs) = some c ∧
            (1 / 2 < c ∨ c < 0)) ∧
        (true = true →
          ∃ p, p ∈ cityMeanPrices dfW ∧ (∀ q ∈ cityMeanPrices dfW, q.2 ≤ p.2) ∧
            i3 = [Insight.topCityI p.1 p.2]) ∧
        (true = false → i3 = []) ∧
        (true = true → bhkInsights dfW true = [Insight.commonBHKI (commonBHK dfW)]) ∧
        (true = false → bhkInsights dfW true = [])) :=
  ⟨by decide, claim9_insight_rules dfW true true (by decide)⟩
